import Mathlib

/-!
Verification of the encrypted versioned store of the Secure-Environment-Manager
repository (src/app.py, src/history_manager.py, src/audit_logger.py).

The Python code is shallowly embedded:

* a Python dict of string variables becomes an association list
  `Mapping := List (String × String)` whose order is insertion order
  (dict inputs always have pairwise distinct keys);
* the bytes stored in the per-identity file `DATA_DIR/namespace/environment.enc`
  become a value of the inductive type `Blob`: Fernet is an authenticated
  cipher, so a stored byte string is, from the point of view of `read_vars`,
  either a valid token whose plaintext is a JSON object of strings
  (`Blob.encDict`), a valid token whose plaintext is valid JSON that is not an
  object (`Blob.encNonDict`), a valid token whose plaintext is not valid JSON
  (`Blob.encBadJson`), or bytes failing authentication (`Blob.tampered`);
* an absent file is `none : Option Blob`;
* regular expressions are translated together with the semantics of Python
  `re.match`, where the anchor written as a dollar sign also matches just
  before a newline that is the final character of the string.

All claims quantify over a single identity; distinct identities use disjoint
paths and disjoint locks, so the model is per identity.
-/

namespace SEM

/-- A Python dict of environment variables, as an association list in
insertion order.  Dicts always have pairwise distinct keys. -/
abbrev Mapping := List (String × String)

/-! ### Key and segment patterns (src/app.py lines 114-115)

`KEY_PATTERN = re.compile(r"^[A-Za-z0-9_][A-Za-z0-9_.-]{0,127}$")`.

`Char.isAlphanum` is exactly the ASCII ranges A-Z, a-z, 0-9, matching the
literal character classes of the regex. -/

/-- Characters allowed as the first character of a variable key. -/
def keyStartChar (c : Char) : Bool :=
  c.isAlphanum || c = '_'

/-- Characters allowed in the tail of a variable key. -/
def keyBodyChar (c : Char) : Bool :=
  c.isAlphanum || c = '_' || c = '.' || c = '-'

/-- The variable-key pattern as the specification describes it: one character
of letters, digits or underscore, then up to 127 characters of letters,
digits, underscore, dot or hyphen, spanning the whole string. -/
def keyCoreMatch : List Char → Bool
  | [] => false
  | c :: rest => keyStartChar c && rest.length ≤ 127 && rest.all keyBodyChar

/-- Truth value of `KEY_PATTERN.match(k)` in Python.  The regex is anchored at
the start; its final anchor matches at the end of the string or just before a
newline that is the last character.  Since neither character class contains a
newline, the regex accepts exactly the core pattern optionally followed by one
trailing newline. -/
def pyKeyMatch (k : String) : Bool :=
  keyCoreMatch k.data ||
    (match k.data.getLast? with
     | some c => c = '\n' && keyCoreMatch k.data.dropLast
     | none => false)

/-! ### Python sorting of dict items

`sorted(data.items())` sorts the key/value pairs lexicographically: by key
(Unicode code points), then by value.  We embed it as an insertion sort; on
the distinct-key inputs a dict provides it agrees with any correct sort. -/

/-- Python string comparison: lexicographic on code points. -/
def charListLt : List Char → List Char → Bool
  | [], [] => false
  | [], _ :: _ => true
  | _ :: _, [] => false
  | a :: as, b :: bs =>
    if a.toNat < b.toNat then true
    else if b.toNat < a.toNat then false
    else charListLt as bs

/-- Python `<` on strings. -/
def pyStrLt (s t : String) : Bool :=
  charListLt s.data t.data

/-- Python `<=` on pairs of strings (tuple comparison). -/
def pairLe (p q : String × String) : Bool :=
  pyStrLt p.1 q.1 || (p.1 = q.1 && (pyStrLt p.2 q.2 || p.2 = q.2))

/-- Insert one pair into a sorted list of pairs. -/
def insertSorted (p : String × String) : Mapping → Mapping
  | [] => [p]
  | q :: rest => if pairLe p q then p :: q :: rest else q :: insertSorted p rest

/-- The embedding of `sorted(data.items())`. -/
def sortPairs : Mapping → Mapping
  | [] => []
  | p :: rest => insertSorted p (sortPairs rest)

/-! ### The stored blob and the Current-State Store
(src/app.py, `read_vars` lines 173-190 and `write_vars` lines 193-201). -/

/-- What the encrypted file content can look like to `read_vars` after the
Fernet decryption attempt.  Fernet tokens are authenticated and decryption is
the inverse of encryption, so a token produced by `write_vars` decrypts to
exactly the serialized mapping. -/
inductive Blob where
  /-- A Fernet token whose plaintext is a JSON object of string values,
  listed in object order with pairwise distinct keys. -/
  | encDict (entries : Mapping) : Blob
  /-- A Fernet token whose plaintext is valid JSON but not an object. -/
  | encNonDict : Blob
  /-- A Fernet token whose plaintext is not valid JSON. -/
  | encBadJson : Blob
  /-- Bytes that fail Fernet authentication (raise `InvalidToken`). -/
  | tampered : Blob
  deriving DecidableEq

/-- The message placed under the key `error` by `read_vars` when decryption
fails (src/app.py line 187). -/
def decryptFailedMsg : String :=
  "Decryption failed. Invalid key or corrupted data."

/-- Embedding of `read_vars` (src/app.py lines 173-190) applied to the state
of the identity file: no file yields an empty dict; a decryptable JSON object
is returned with keys and values coerced by `str` (identity on strings); an
`InvalidToken` is caught and reported as a dict holding the key `error`; a
JSON decode error, or valid JSON that is not an object, yields an empty
dict. -/
def read_vars : Option Blob → Mapping
  | none => []
  | some (.encDict entries) => entries
  | some .encNonDict => []
  | some .encBadJson => []
  | some .tampered => [("error", decryptFailedMsg)]

/-- Embedding of the sanitization inside `write_vars` (src/app.py line 196):
sort the items, then keep only those pairs whose key matches `KEY_PATTERN`;
`str` coercion of values is the identity on strings. -/
def sanitize (data : Mapping) : Mapping :=
  (sortPairs data).filter fun p => pyKeyMatch p.1

/-- Embedding of `write_vars` (src/app.py lines 193-201): the bytes written to
the identity file are one Fernet encryption of the compact JSON serialization
of the sanitized mapping. -/
def write_vars (data : Mapping) : Blob :=
  .encDict (sanitize data)

/-! ### Helper lemmas on the sort. -/

theorem mem_insertSorted (p q : String × String) (l : Mapping) :
    p ∈ insertSorted q l ↔ p = q ∨ p ∈ l := by
  induction l with
  | nil => simp [insertSorted]
  | cons r rest ih =>
    by_cases h : pairLe q r = true
    · simp [insertSorted, h]
    · simp only [insertSorted, if_neg h, List.mem_cons, ih]
      tauto

theorem mem_sortPairs (p : String × String) (l : Mapping) :
    p ∈ sortPairs l ↔ p ∈ l := by
  induction l with
  | nil => simp [sortPairs]
  | cons q rest ih =>
    simp [sortPairs, mem_insertSorted, ih]

theorem mem_read_write (M : Mapping) (p : String × String) :
    p ∈ read_vars (some (write_vars M)) ↔ p ∈ M ∧ pyKeyMatch p.1 = true := by
  simp [read_vars, write_vars, sanitize, List.mem_filter, mem_sortPairs]

/-! ### Claim C1 -/

/-- C1: for every valid identity and every mapping `M` whose keys all match
the Variable Key pattern, `write` followed by `read` returns a mapping equal
to `M` as a set of key/value pairs (values already strings, so `str` coercion
is the identity), regardless of the insertion order of the keys of `M`. -/
theorem C1_round_trip (M : Mapping)
    (hkeys : ∀ p ∈ M, keyCoreMatch p.1.data = true) :
    ∀ k v : String, (k, v) ∈ read_vars (some (write_vars M)) ↔ (k, v) ∈ M := by
  intro k v
  rw [mem_read_write]
  constructor
  · exact fun h => h.1
  · intro h
    refine ⟨h, ?_⟩
    have := hkeys (k, v) h
    simp [pyKeyMatch, this]

/-- Witness for C1 at a concrete two-variable mapping, checking both
directions of the set equality on an input given in non-sorted order. -/
theorem C1_round_trip_witness :
    ("A", "1") ∈ read_vars (some (write_vars [("B", "2"), ("A", "1")])) :=
  (C1_round_trip [("B", "2"), ("A", "1")] (by decide) "A" "1").mpr (by decide)

/-! ### Claim C5 -/

/-- C5 counterexample: the key made of the letter A followed by one newline
character fails the pattern the claim describes (a newline is in neither
character class), yet `write_vars` persists it and it appears in the
subsequent read.  The reason is the Python regex anchor: the final anchor of
`KEY_PATTERN` also matches just before a newline that ends the string, so
`KEY_PATTERN.match("A\n")` succeeds. -/
theorem C5_counterexample :
    keyCoreMatch "A\n".data = false ∧
      ("A\n", "v") ∈ read_vars (some (write_vars [("A\n", "v"), ("!bad", "w")])) ∧
      ("!bad", "w") ∉ read_vars (some (write_vars [("A\n", "v"), ("!bad", "w")])) := by
  decide

/-- C5 amended: `write_vars` persists exactly the entries whose keys match
`KEY_PATTERN` under Python matching semantics, i.e. the described pattern
(start letter/digit/underscore, then up to 127 characters of
letters/digits/underscore/dot/hyphen) optionally followed by one trailing
newline; every other entry is silently dropped and never appears in a
subsequent read. -/
theorem C5_filter_invalid_keys (M : Mapping) :
    ∀ k v : String,
      (k, v) ∈ read_vars (some (write_vars M)) ↔ (k, v) ∈ M ∧ pyKeyMatch k = true :=
  fun k v => mem_read_write M (k, v)

/-! ### Claim C3

The caller-side failure detector: `api_environment` (src/app.py lines
623-627) treats a read result as a decryption failure exactly when the
returned dict contains the key `error`. -/

/-- Embedding of the check written in Python as: error in variables
(src/app.py line 625). -/
def hasErrorKey (m : Mapping) : Bool :=
  m.any fun p => p.1 = "error"

/-- C3 counterexample: the claim says no writable mapping can be mistaken for
the failure marker.  But `error` is itself a valid variable key; storing it
makes `read_vars` return a success mapping on which the caller-side detector
fires, exactly as it does on the genuine failure marker, and the failure
marker is itself an ordinary mapping (same type as a success result), not a
distinct tagged value. -/
theorem C3_counterexample :
    keyCoreMatch "error".data = true ∧
      read_vars (some (write_vars [("error", "oops")])) = [("error", "oops")] ∧
      hasErrorKey (read_vars (some (write_vars [("error", "oops")]))) = true ∧
      read_vars (some .tampered) = [("error", decryptFailedMsg)] ∧
      hasErrorKey (read_vars (some .tampered)) = true := by
  decide

/-- C3 amended: `read_vars` signals decryption failure in band, as a mapping
holding the single key `error`; callers such as `api_environment` detect
failure by membership of that key, so a legitimately stored variable named
`error` (any value) makes the detector fire exactly as the failure marker
does and is not distinguishable from it. -/
theorem C3_error_marker_in_band (v : String) :
    hasErrorKey (read_vars (some (write_vars [("error", v)]))) = true ∧
      hasErrorKey (read_vars (some .tampered)) = true := by
  constructor
  · have : ("error", v) ∈ read_vars (some (write_vars [("error", v)])) :=
      (mem_read_write _ _).mpr ⟨by simp, by show pyKeyMatch "error" = true; decide⟩
    simp only [hasErrorKey, List.any_eq_true]
    exact ⟨("error", v), this, by simp⟩
  · decide

/-! ### Claim C4 -/

/-- C4: a stored blob failing authenticated decryption is read as a value
distinct from the empty mapping returned for an absent blob; the failure is
surfaced as a recoverable value (the error-marker mapping), not by raising:
the `InvalidToken` branch of `read_vars` catches the exception and returns. -/
theorem C4_tampered_distinct_from_absent :
    read_vars (some .tampered) ≠ read_vars none ∧
      read_vars none = [] ∧
      read_vars (some .tampered) = [("error", decryptFailedMsg)] := by
  decide

/-! ### Claim C2: the Concurrency Gate

In the source, `DATA_LOCKS` (src/app.py line 112) keys one lock per path.
`read_vars` holds that lock only while reading the file bytes (lines
177-179) and `write_vars` holds it only while writing the new bytes (lines
199-201).  The `add_variable` route (lines 433-473) calls `read_vars`,
modifies the dict in memory, then calls `write_vars`: the lock is released
between the read and the write of the cycle.

The model: each thread runs the add-variable cycle for one key/value.  A
schedule is a list of thread ids; the first occurrence of an id performs the
(atomic, lock-protected) `read_vars` of the blob, the second occurrence
performs the (atomic, lock-protected) `write_vars` of the mapping computed
from what that thread read.  Because the lock is released between the two
file operations, every interleaving of these atomic actions is permitted by
the code. -/

/-- One add-variable caller: the key and value it submits. -/
structure AddOp where
  key : String
  val : String
  deriving DecidableEq

/-- Python dict assignment on the embedding: replace the value in place if
the key is present, otherwise append the pair. -/
def pyInsert (m : Mapping) (k v : String) : Mapping :=
  match m with
  | [] => [(k, v)]
  | p :: rest => if p.1 = k then (k, v) :: rest else p :: pyInsert rest k v

/-- Execute a schedule of add-variable threads against the identity file.
`saved` holds, per thread, the result of its `read_vars` once performed.
Each list entry of the schedule is one lock-protected atomic file access:
the first occurrence of a thread id is its `read_vars` (src/app.py line 448),
the second is its `write_vars` of the updated dict (line 450). -/
def execSched (ops : List AddOp) : List Nat → Option Blob →
    List (Option Mapping) → Option Blob
  | [], blob, _ => blob
  | t :: rest, blob, saved =>
    match saved.getD t none with
    | none =>
      execSched ops rest blob (saved.set t (some (read_vars blob)))
    | some rv =>
      let op := ops.getD t ⟨"", ""⟩
      execSched ops rest (some (write_vars (pyInsert rv op.key op.val))) saved

/-- Two concrete add-variable callers on an initially absent blob. -/
def ops2 : List AddOp :=
  [⟨"K1", "V1"⟩, ⟨"K2", "V2"⟩]

/-- C2 counterexample: the schedule `[0, 1, 0, 1]` is permitted by the
per-path lock (the lock brackets each file access separately and is free
between them), and in it the two read-modify-write cycles interleave: both
threads read before either writes.  The outcome drops the variable of thread
0 even though thread 0 completed its whole cycle, and it differs from the
outcome of both serial orders, so the claimed serialization of whole
read-decrypt-modify-encrypt-write sequences does not hold. -/
theorem C2_counterexample :
    execSched ops2 [0, 1, 0, 1] none [none, none] =
        some (.encDict [("K2", "V2")]) ∧
      ("K1", "V1") ∉ read_vars (execSched ops2 [0, 1, 0, 1] none [none, none]) ∧
      execSched ops2 [0, 0, 1, 1] none [none, none] =
        some (.encDict [("K1", "V1"), ("K2", "V2")]) ∧
      execSched ops2 [1, 1, 0, 0] none [none, none] =
        some (.encDict [("K1", "V1"), ("K2", "V2")]) := by
  decide

/-- C2 amended: the per-path lock makes each individual blob access atomic,
so after any schedule of add-variable threads the identity file is either
still absent or the complete output of one `write_vars` call — one Fernet
encryption of one sanitized mapping, never interleaved or corrupted bytes,
and for plain write calls the final blob is the mapping of the last writer.
The
lock however does not span the whole read-modify-write cycle: it is released
between the `read_vars` and the `write_vars` of `add_variable`, so two such
cycles on the same blob can interleave and an earlier update can be lost, as
the counterexample schedule shows. -/
theorem C2_blob_always_complete_write (ops : List AddOp) (sched : List Nat)
    (blob0 : Option Blob) (saved : List (Option Mapping))
    (h : blob0 = none ∨ ∃ m : Mapping, blob0 = some (write_vars m)) :
    execSched ops sched blob0 saved = none ∨
      ∃ m : Mapping, execSched ops sched blob0 saved = some (write_vars m) := by
  induction sched generalizing blob0 saved with
  | nil => exact h
  | cons t rest ih =>
    cases hs : saved.getD t none with
    | none =>
      simp only [execSched, hs]
      exact ih blob0 _ h
    | some rv =>
      simp only [execSched, hs]
      exact ih _ saved (Or.inr ⟨_, rfl⟩)

/-- Witness for C2 at the counterexample schedule starting from an absent
blob. -/
theorem C2_blob_always_complete_write_witness :
    execSched ops2 [0, 1, 0, 1] none [none, none] = none ∨
      ∃ m : Mapping,
        execSched ops2 [0, 1, 0, 1] none [none, none] = some (write_vars m) :=
  C2_blob_always_complete_write ops2 [0, 1, 0, 1] none [none, none] (Or.inl rfl)

/-! ### The History Log (src/history_manager.py)

One append-only file of JSON lines per identity.  `save_snapshot` (lines
39-68) appends one line holding the snapshot object whose `variables` field
is a separate Fernet encryption of the JSON serialization of the mapping.
`_decrypt_data` (lines 30-37) catches every exception — both an
authentication failure and unparseable decrypted JSON — and returns an empty
dict.  Encrypted payloads decrypting to valid JSON that is not an object are
outside the model (`save_snapshot` never produces them and no claim reaches
them). -/

/-- The encrypted `variables` field of one stored history line. -/
inductive HistBlob where
  /-- A Fernet token of the JSON serialization of `m` (what `_encrypt_data`
  produces). -/
  | enc (m : Mapping) : HistBlob
  /-- A payload on which `_decrypt_data` raises internally: bytes failing
  authentication, or a token whose plaintext is not valid JSON.  The handler
  returns an empty dict. -/
  | corrupt : HistBlob
  deriving DecidableEq

/-- Embedding of `_decrypt_data` (src/history_manager.py lines 30-37). -/
def decryptData : HistBlob → Mapping
  | .enc m => m
  | .corrupt => []

/-- One snapshot object as serialized on a history line by `save_snapshot`
(src/history_manager.py lines 51-58). -/
structure Snapshot where
  sid : String
  timestamp : String
  user_id : String
  action : String
  description : String
  variablesEnc : HistBlob
  deriving DecidableEq

/-- One line of the history file. -/
inductive HistLine where
  /-- A line parsing to a snapshot object. -/
  | parsed (s : Snapshot) : HistLine
  /-- A line that is not valid JSON (`json.JSONDecodeError` on parse). -/
  | badJson : HistLine
  deriving DecidableEq

/-- The arguments of one successful `save_snapshot` call: the freshly
generated uuid4 id, the timestamp taken at the call, and the caller-supplied
fields.  uuid4 ids are globally unique; theorems make that explicit as a
distinctness hypothesis. -/
structure AppendCall where
  sid : String
  timestamp : String
  user_id : String
  action : String
  description : String
  vars : Mapping
  deriving DecidableEq

/-- The snapshot object `save_snapshot` serializes for one call: the
`variables` field is the independent encryption of the mapping. -/
def snapOfCall (c : AppendCall) : Snapshot :=
  { sid := c.sid
    timestamp := c.timestamp
    user_id := c.user_id
    action := c.action
    description := c.description
    variablesEnc := .enc c.vars }

/-- The history file after N successful `save_snapshot` calls, in call
order: each call appends exactly one line (src/history_manager.py lines
60-65). -/
def buildLog (calls : List AppendCall) : List HistLine :=
  calls.map fun c => .parsed (snapOfCall c)

/-- A snapshot as returned by `get_snapshot`, with the `variables` entry
replaced by the decrypted mapping (src/history_manager.py line 107). -/
structure DecSnapshot where
  sid : String
  timestamp : String
  user_id : String
  action : String
  description : String
  vars : Mapping
  deriving DecidableEq

/-- Embedding of `get_snapshot` (src/history_manager.py lines 94-114): scan
the lines from the start of the file, skip unparseable lines, and return the
first snapshot whose `id` equals the requested one with its variables
decrypted on demand; an absent file (the empty list) or an exhausted scan
returns none. -/
def get_snapshot : List HistLine → String → Option DecSnapshot
  | [], _ => none
  | .badJson :: rest, sid => get_snapshot rest sid
  | .parsed s :: rest, sid =>
    if s.sid = sid then
      some
        { sid := s.sid
          timestamp := s.timestamp
          user_id := s.user_id
          action := s.action
          description := s.description
          vars := decryptData s.variablesEnc }
    else get_snapshot rest sid

/-- A history entry after `entry.pop("variables", None)`: the summary shown
by `get_history` (src/history_manager.py line 83). -/
structure Summary where
  sid : String
  timestamp : String
  user_id : String
  action : String
  description : String
  deriving DecidableEq

/-- Drop the heavy variables field of a parsed snapshot object. -/
def stripVars (s : Snapshot) : Summary :=
  { sid := s.sid
    timestamp := s.timestamp
    user_id := s.user_id
    action := s.action
    description := s.description }

/-- The collection loop of `get_history` (src/history_manager.py lines
78-86): parse each line in file order, skip lines that are not valid JSON,
and keep the parsed entries with variables removed. -/
def collectHistory : List HistLine → List Summary
  | [] => []
  | .badJson :: rest => collectHistory rest
  | .parsed s :: rest => stripVars s :: collectHistory rest

/-- Embedding of `get_history` (src/history_manager.py lines 70-92): collect
in file order, then return the reversal truncated to `limit`. -/
def get_history (log : List HistLine) (limit : Nat) : List Summary :=
  ((collectHistory log).reverse).take limit

/-- The summary of one append call. -/
def summaryOfCall (c : AppendCall) : Summary :=
  stripVars (snapOfCall c)

/-! ### Claim C6 -/

theorem collectHistory_buildLog (calls : List AppendCall) :
    collectHistory (buildLog calls) = calls.map summaryOfCall := by
  induction calls with
  | nil => rfl
  | cons c rest ih =>
    simp only [buildLog] at ih ⊢
    simp [collectHistory, summaryOfCall, ih]

/-- The result `get_snapshot` produces for the line appended by call `c`. -/
def decSnapOfCall (c : AppendCall) : DecSnapshot :=
  { sid := c.sid
    timestamp := c.timestamp
    user_id := c.user_id
    action := c.action
    description := c.description
    vars := c.vars }

/-- C6: on the log left by any sequence of successful `save_snapshot` calls
with (uuid4-guaranteed) pairwise distinct ids, `get_snapshot` returns, for
each appended id, the snapshot whose decrypted variables equal exactly the
mapping passed to that call, and returns none for every id never returned by
an append. -/
theorem C6_snapshot_lookup (calls : List AppendCall)
    (hids : (calls.map AppendCall.sid).Nodup) :
    (∀ c ∈ calls, get_snapshot (buildLog calls) c.sid = some (decSnapOfCall c)) ∧
      ∀ sid : String, sid ∉ calls.map AppendCall.sid →
        get_snapshot (buildLog calls) sid = none := by
  induction calls with
  | nil => exact ⟨by simp, fun _ _ => rfl⟩
  | cons c0 rest ih =>
    simp only [List.map_cons, List.nodup_cons] at hids
    obtain ⟨hnotin, hrest⟩ := hids
    obtain ⟨ihfound, ihnone⟩ := ih hrest
    constructor
    · intro c hc
      rcases List.mem_cons.mp hc with hceq | hcrest
      · subst hceq
        simp [buildLog, get_snapshot, snapOfCall, decSnapOfCall, decryptData]
      · have hne : c0.sid ≠ c.sid := by
          intro heq
          exact hnotin (heq ▸ List.mem_map_of_mem AppendCall.sid hcrest)
        simpa [buildLog, get_snapshot, snapOfCall, hne] using ihfound c hcrest
    · intro sid hsid
      simp only [List.map_cons, List.mem_cons, not_or] at hsid
      have hne : c0.sid ≠ sid := fun h => hsid.1 h.symm
      simpa [buildLog, get_snapshot, snapOfCall, hne] using ihnone sid hsid.2

/-- Witness for C6 on a concrete two-append log: both lookups succeed with
the exact variables, and an unknown id is not found. -/
theorem C6_snapshot_lookup_witness :
    get_snapshot
        (buildLog
          [⟨"id1", "t1", "u", "CREATE", "d1", [("A", "1")]⟩,
           ⟨"id2", "t2", "u", "UPDATE", "d2", [("A", "1"), ("B", "2")]⟩])
        "id2" =
      some ⟨"id2", "t2", "u", "UPDATE", "d2", [("A", "1"), ("B", "2")]⟩ :=
  (C6_snapshot_lookup
      [⟨"id1", "t1", "u", "CREATE", "d1", [("A", "1")]⟩,
       ⟨"id2", "t2", "u", "UPDATE", "d2", [("A", "1"), ("B", "2")]⟩]
      (by decide)).1
    ⟨"id2", "t2", "u", "UPDATE", "d2", [("A", "1"), ("B", "2")]⟩ (by decide)

/-! ### Claim C7 -/

/-- C7: after N successful appends, `get_history` returns min(N, limit)
summaries, ordered newest first — the reversal of append order, which is
on-disk line order — none of which carries a variables field (the `Summary`
shape is the parsed object after the pop of `variables`); and a line that is
not valid JSON is skipped without aborting the scan, leaving the result
unchanged. -/
theorem C7_history_listing (calls : List AppendCall) (limit : Nat)
    (log1 log2 : List HistLine) :
    (get_history (buildLog calls) limit).length = min calls.length limit ∧
      get_history (buildLog calls) limit =
        ((calls.map summaryOfCall).reverse).take limit ∧
      get_history (log1 ++ .badJson :: log2) limit =
        get_history (log1 ++ log2) limit := by
  refine ⟨?_, ?_, ?_⟩
  · simp [get_history, collectHistory_buildLog, Nat.min_comm]
  · simp [get_history, collectHistory_buildLog]
  · have hskip : ∀ l1 l2 : List HistLine,
        collectHistory (l1 ++ .badJson :: l2) = collectHistory (l1 ++ l2) := by
      intro l1 l2
      induction l1 with
      | nil => simp [collectHistory]
      | cons l rest ih =>
        cases l with
        | parsed s => simp [collectHistory, ih]
        | badJson => simp [collectHistory, ih]
    simp [get_history, hskip]

/-! ### Claim C10 -/

/-- C10: a history line whose encrypted variables payload fails decryption
(or decrypts to unparseable JSON) is still returned by `get_snapshot`, with
variables equal to the empty mapping and no error surfaced — the very result
produced for a snapshot genuinely appended with an empty mapping, so the two
are indistinguishable to the caller. -/
theorem C10_corrupt_snapshot_reads_empty (s : Snapshot) (rest : List HistLine)
    (h : s.variablesEnc = .corrupt) :
    get_snapshot (.parsed s :: rest) s.sid =
        some ⟨s.sid, s.timestamp, s.user_id, s.action, s.description, []⟩ ∧
      get_snapshot (.parsed s :: rest) s.sid =
        get_snapshot (.parsed { s with variablesEnc := .enc [] } :: rest) s.sid := by
  constructor
  · simp [get_snapshot, h, decryptData]
  · simp [get_snapshot, h, decryptData]

/-- Witness for C10 at a concrete corrupted snapshot line. -/
theorem C10_corrupt_snapshot_reads_empty_witness :
    get_snapshot [.parsed ⟨"id9", "t", "u", "CREATE", "d", .corrupt⟩] "id9" =
      some ⟨"id9", "t", "u", "CREATE", "d", []⟩ :=
  (C10_corrupt_snapshot_reads_empty ⟨"id9", "t", "u", "CREATE", "d", .corrupt⟩ []
      rfl).1

/-! ### The Audit Log (src/audit_logger.py)

A single global JSON-lines file.  `get_logs` (lines 247-285) scans it from
the start, skips lines that are not valid JSON, keeps entries passing the
provided filters, stops once the collected count reaches `limit` (the check
runs after each append), and returns the collected list reversed.  Every
filter is guarded by Python truthiness: a filter that is `None` or the empty
string is not applied. -/

/-- One parsed audit log entry.  Every record written by the logger carries
these fields; `get_logs` reads only `namespace`, `environment` and
`action`. -/
structure AuditEvent where
  timestamp : String
  action : String
  namespace_ : String
  environment : String
  resource : String
  user_id : String
  ip_address : String
  deriving DecidableEq

/-- One line of the audit file. -/
inductive AuditLine where
  /-- A line parsing to an audit entry. -/
  | parsed (e : AuditEvent) : AuditLine
  /-- A line that is not valid JSON. -/
  | badJson : AuditLine
  deriving DecidableEq

/-- Embedding of one filter guard of `get_logs`, written in Python as:
if namespace and entry.get(...) != namespace: continue.  The filter applies
only when the argument is truthy, i.e. present and non-empty. -/
def passesFilter (f : Option String) (field : String) : Bool :=
  match f with
  | none => true
  | some s => if s = "" then true else field = s

/-- The conjunction of the three filter guards of `get_logs` (src/
audit_logger.py lines 267-272). -/
def passesFilters (ns env act : Option String) (e : AuditEvent) : Bool :=
  passesFilter ns e.namespace_ && passesFilter env e.environment &&
    passesFilter act e.action

/-- The collection loop of `get_logs` (src/audit_logger.py lines 261-279):
scan lines in file order, skip unparseable lines, append matching entries to
the accumulator, and break as soon as the accumulated count reaches `limit`
— checked after the append, so one entry is collected even when `limit` is
zero. -/
def getLogsAux (ns env act : Option String) (limit : Nat) :
    List AuditLine → List AuditEvent → List AuditEvent
  | [], acc => acc
  | .badJson :: rest, acc => getLogsAux ns env act limit rest acc
  | .parsed e :: rest, acc =>
    if passesFilters ns env act e then
      let acc2 := acc ++ [e]
      if limit ≤ acc2.length then acc2 else getLogsAux ns env act limit rest acc2
    else getLogsAux ns env act limit rest acc

/-- Embedding of `get_logs` (src/audit_logger.py lines 247-285): the
collected entries, most recently scanned first. -/
def get_logs (ns env act : Option String) (limit : Nat)
    (lines : List AuditLine) : List AuditEvent :=
  (getLogsAux ns env act limit lines []).reverse

/-- The parse step of the scan. -/
def parseAudit : AuditLine → Option AuditEvent
  | .parsed e => some e
  | .badJson => none

/-- The matching entries of the file in scan order. -/
def matchingEvents (ns env act : Option String) (lines : List AuditLine) :
    List AuditEvent :=
  (lines.filterMap parseAudit).filter (passesFilters ns env act)

theorem getLogsAux_eq_take (ns env act : Option String) (limit : Nat)
    (lines : List AuditLine) (acc : List AuditEvent)
    (hacc : acc.length < limit) :
    getLogsAux ns env act limit lines acc =
      acc ++ (matchingEvents ns env act lines).take (limit - acc.length) := by
  induction lines generalizing acc with
  | nil => simp [getLogsAux, matchingEvents]
  | cons l rest ih =>
    cases l with
    | badJson =>
      simpa [getLogsAux, matchingEvents, parseAudit] using ih acc hacc
    | parsed e =>
      by_cases hp : passesFilters ns env act e = true
      · have hm : matchingEvents ns env act (.parsed e :: rest) =
            e :: matchingEvents ns env act rest := by
          simp [matchingEvents, parseAudit, hp]
        by_cases hl : limit ≤ acc.length + 1
        · have hlim : limit = acc.length + 1 := Nat.le_antisymm hl hacc
          simp [getLogsAux, hp, hm, hlim, List.take_succ_cons,
            Nat.add_sub_cancel_left]
        · have hlt : acc.length + 1 < limit := Nat.lt_of_not_le hl
          have := ih (acc ++ [e]) (by simpa using hlt)
          simp only [getLogsAux, hp, if_true, List.length_append,
            List.length_singleton, if_neg hl] at *
          rw [this, hm]
          have hsub : limit - acc.length = (limit - (acc.length + 1)) + 1 := by
            omega
          simp [hsub, List.take_succ_cons]
      · have hm : matchingEvents ns env act (.parsed e :: rest) =
            matchingEvents ns env act rest := by
          simp [matchingEvents, parseAudit, hp]
        simpa [getLogsAux, hp, hm] using ih acc hacc

/-! ### Claim C8 -/

/-- Concrete audit entries for the C8 counterexample. -/
def auditEvent1 : AuditEvent :=
  ⟨"t1", "CREATE_VARIABLE", "acme", "prod", "K", "u", "1.2.3.4"⟩

/-- A second concrete audit entry. -/
def auditEvent2 : AuditEvent :=
  ⟨"t2", "DELETE_VARIABLE", "acme", "prod", "K", "u", "1.2.3.4"⟩

/-- C8 counterexample, two facets at concrete inputs.  First: with
`limit = 0` the scan still collects one record, because the stop condition is
checked only after an append — the claim promises at most `limit` collected
records for every combination.  Second: a provided empty-string namespace
filter is ignored (Python truthiness), so an event whose namespace does not
match the provided filter is returned anyway. -/
theorem C8_counterexample :
    (get_logs none none none 0 [.parsed auditEvent1, .parsed auditEvent2]).length
        = 1 ∧
      get_logs (some "") none none 100 [.parsed auditEvent1] = [auditEvent1] ∧
      auditEvent1.namespace_ ≠ "" := by
  decide

/-- C8 amended: for `limit ≥ 1`, `get_logs` scans from the start of the
file, skips unparseable lines, collects up to `limit` records matching every
applied filter, stops at the limit, and returns the collected records
reversed; a provided filter is applied — and then every returned event
matches it — only when it is non-empty, an empty-string filter being treated
as absent. -/
theorem C8_query_filters (ns env act : Option String) (limit : Nat)
    (lines : List AuditLine) (hlim : 1 ≤ limit) :
    get_logs ns env act limit lines =
        ((matchingEvents ns env act lines).take limit).reverse ∧
      (get_logs ns env act limit lines).length ≤ limit ∧
      ∀ e ∈ get_logs ns env act limit lines,
        (∀ f : String, ns = some f → f ≠ "" → e.namespace_ = f) ∧
          (∀ f : String, env = some f → f ≠ "" → e.environment = f) ∧
          (∀ f : String, act = some f → f ≠ "" → e.action = f) := by
  have hmain : get_logs ns env act limit lines =
      ((matchingEvents ns env act lines).take limit).reverse := by
    unfold get_logs
    rw [getLogsAux_eq_take ns env act limit lines [] (by simp only [List.length_nil]; omega)]
    simp
  refine ⟨hmain, ?_, ?_⟩
  · rw [hmain]
    simp only [List.length_reverse]
    exact List.length_take_le limit _
  · intro e he
    rw [hmain] at he
    have hmem : e ∈ matchingEvents ns env act lines :=
      List.mem_of_mem_take (List.mem_reverse.mp he)
    have hpass : passesFilters ns env act e = true :=
      (List.mem_filter.mp hmem).2
    simp only [passesFilters, Bool.and_eq_true] at hpass
    obtain ⟨⟨hns, henv⟩, hact⟩ := hpass
    refine ⟨?_, ?_, ?_⟩
    · intro f hf hne
      subst hf
      simpa [passesFilter, hne] using hns
    · intro f hf hne
      subst hf
      simpa [passesFilter, hne] using henv
    · intro f hf hne
      subst hf
      simpa [passesFilter, hne] using hact

/-- Witness for C8 on a concrete log: a namespace and environment filter
with limit 1 keeps only the first matching record, returned alone. -/
theorem C8_query_filters_witness :
    get_logs (some "acme") (some "prod") none 1
        [.badJson, .parsed auditEvent1, .parsed auditEvent2] =
      ((matchingEvents (some "acme") (some "prod") none
          [.badJson, .parsed auditEvent1, .parsed auditEvent2]).take 1).reverse :=
  (C8_query_filters (some "acme") (some "prod") none 1
      [.badJson, .parsed auditEvent1, .parsed auditEvent2] (by decide)).1

/-! ### SHA-256 (FIPS 180-4)

`AuditLogger._hash_value` (src/audit_logger.py lines 29-31) computes
`hashlib.sha256(value.encode()).hexdigest()[:16]`.  The hash is embedded
executably: bytes are naturals below 256, words are naturals reduced modulo
2 to the 32nd power. -/

/-- Two to the 32nd power, the word modulus. -/
def w32 : Nat := 4294967296

/-- Right rotation of a 32-bit word. -/
def rotr32 (n x : Nat) : Nat :=
  ((x >>> n) ||| (x <<< (32 - n))) % w32

/-- Bitwise complement of a 32-bit word. -/
def not32 (x : Nat) : Nat :=
  x ^^^ (w32 - 1)

/-- The choice function of the compression rounds. -/
def shaCh (x y z : Nat) : Nat :=
  (x &&& y) ^^^ (not32 x &&& z)

/-- The majority function of the compression rounds. -/
def shaMaj (x y z : Nat) : Nat :=
  (x &&& y) ^^^ (x &&& z) ^^^ (y &&& z)

/-- The big sigma-0 word function. -/
def bigSigma0 (x : Nat) : Nat :=
  rotr32 2 x ^^^ rotr32 13 x ^^^ rotr32 22 x

/-- The big sigma-1 word function. -/
def bigSigma1 (x : Nat) : Nat :=
  rotr32 6 x ^^^ rotr32 11 x ^^^ rotr32 25 x

/-- The small sigma-0 word function of the message schedule. -/
def smallSigma0 (x : Nat) : Nat :=
  rotr32 7 x ^^^ rotr32 18 x ^^^ (x >>> 3)

/-- The small sigma-1 word function of the message schedule. -/
def smallSigma1 (x : Nat) : Nat :=
  rotr32 17 x ^^^ rotr32 19 x ^^^ (x >>> 10)

/-- The 64 round constants. -/
def K256 : List Nat :=
  [1116352408, 1899447441, 3049323471, 3921009573,
   961987163, 1508970993, 2453635748, 2870763221,
   3624381080, 310598401, 607225278, 1426881987,
   1925078388, 2162078206, 2614888103, 3248222580,
   3835390401, 4022224774, 264347078, 604807628,
   770255983, 1249150122, 1555081692, 1996064986,
   2554220882, 2821834349, 2952996808, 3210313671,
   3336571891, 3584528711, 113926993, 338241895,
   666307205, 773529912, 1294757372, 1396182291,
   1695183700, 1986661051, 2177026350, 2456956037,
   2730485921, 2820302411, 3259730800, 3345764771,
   3516065817, 3600352804, 4094571909, 275423344,
   430227734, 506948616, 659060556, 883997877,
   958139571, 1322822218, 1537002063, 1747873779,
   1955562222, 2024104815, 2227730452, 2361852424,
   2428436474, 2756734187, 3204031479, 3329325298]

/-- The eight working variables of the compression function. -/
structure Words8 where
  a : Nat
  b : Nat
  c : Nat
  d : Nat
  e : Nat
  f : Nat
  g : Nat
  h : Nat
  deriving DecidableEq

/-- The initial hash value. -/
def sha256Init : Words8 :=
  ⟨1779033703, 3144134277, 1013904242, 2773480762,
   1359893119, 2600822924, 528734635, 1541459225⟩

/-- Pad a byte message: append the 0x80 byte, zeros to 56 modulo 64, then
the bit length on eight big-endian bytes. -/
def padMessage (msg : List Nat) : List Nat :=
  let r := msg.length % 64
  let zeros := (119 - r) % 64
  let lenBytes := (List.range 8).map fun i => ((8 * msg.length) >>> (8 * (7 - i))) % 256
  msg ++ 128 :: (List.replicate zeros 0 ++ lenBytes)

/-- Big-endian 32-bit words of a block of bytes. -/
def bytesToWords : List Nat → List Nat
  | b0 :: b1 :: b2 :: b3 :: rest =>
    (((b0 * 256 + b1) * 256 + b2) * 256 + b3) :: bytesToWords rest
  | _ => []

/-- Split a list into 64-byte blocks; the fuel only drives structural
recursion and any value at least the list length is enough, since every step
drops 64 elements of a nonempty list. -/
def chunks64Fuel : Nat → List Nat → List (List Nat)
  | 0, _ => []
  | _, [] => []
  | fuel + 1, b :: rest => ((b :: rest).take 64) :: chunks64Fuel fuel ((b :: rest).drop 64)

/-- Split a padded message into 64-byte blocks. -/
def chunks64 (l : List Nat) : List (List Nat) :=
  chunks64Fuel l.length l

/-- Extend the sixteen block words to the 64-entry message schedule. -/
def scheduleW (w16 : Array Nat) : Array Nat :=
  (List.range 48).foldl
    (fun w i =>
      let t := i + 16
      w.push ((smallSigma1 (w.getD (t - 2) 0) + w.getD (t - 7) 0 +
        smallSigma0 (w.getD (t - 15) 0) + w.getD (t - 16) 0) % w32))
    w16

/-- One round of the compression function. -/
def shaRound (k w : Nat) (s : Words8) : Words8 :=
  let t1 := (s.h + bigSigma1 s.e + shaCh s.e s.f s.g + k + w) % w32
  let t2 := (bigSigma0 s.a + shaMaj s.a s.b s.c) % w32
  { a := (t1 + t2) % w32, b := s.a, c := s.b, d := s.c,
    e := (s.d + t1) % w32, f := s.e, g := s.f, h := s.g }

/-- Compress one 64-byte block into the running hash value. -/
def compressBlock (H : Words8) (block : List Nat) : Words8 :=
  let w := scheduleW (bytesToWords block).toArray
  let s := (List.range 64).foldl
    (fun s t => shaRound (K256.getD t 0) (w.getD t 0) s) H
  { a := (H.a + s.a) % w32, b := (H.b + s.b) % w32,
    c := (H.c + s.c) % w32, d := (H.d + s.d) % w32,
    e := (H.e + s.e) % w32, f := (H.f + s.f) % w32,
    g := (H.g + s.g) % w32, h := (H.h + s.h) % w32 }

/-- The SHA-256 state after hashing a byte message. -/
def sha256Words (msg : List Nat) : Words8 :=
  (chunks64 (padMessage msg)).foldl compressBlock sha256Init

/-- A lowercase hexadecimal digit. -/
def hexDigit (n : Nat) : Char :=
  if n < 10 then Char.ofNat (48 + n) else Char.ofNat (87 + n)

/-- The eight hexadecimal digits of a 32-bit word, most significant first. -/
def toHex8 (x : Nat) : List Char :=
  [hexDigit (x / 16 ^ 7 % 16), hexDigit (x / 16 ^ 6 % 16),
   hexDigit (x / 16 ^ 5 % 16), hexDigit (x / 16 ^ 4 % 16),
   hexDigit (x / 16 ^ 3 % 16), hexDigit (x / 16 ^ 2 % 16),
   hexDigit (x / 16 % 16), hexDigit (x % 16)]

/-- The 64 characters of the hexadecimal digest. -/
def digestChars (s : Words8) : List Char :=
  toHex8 s.a ++ toHex8 s.b ++ toHex8 s.c ++ toHex8 s.d ++
    toHex8 s.e ++ toHex8 s.f ++ toHex8 s.g ++ toHex8 s.h

/-- UTF-8 bytes of a Python string, as `value.encode()` produces them.
This is the byte list underlying `String.toUTF8`, whose definition in core
is the flat map of `String.utf8EncodeChar` over the characters. -/
def stringBytes (s : String) : List Nat :=
  (s.data.flatMap String.utf8EncodeChar).map UInt8.toNat

/-- The characters of `hashlib.sha256(s.encode()).hexdigest()`. -/
def sha256hexChars (s : String) : List Char :=
  digestChars (sha256Words (stringBytes s))

/-- `hashlib.sha256(s.encode()).hexdigest()`. -/
def sha256hex (s : String) : String :=
  ⟨sha256hexChars s⟩

/-- Embedding of `AuditLogger._hash_value` (src/audit_logger.py lines
29-31): the first sixteen characters of the hexadecimal SHA-256 digest. -/
def hashValue (v : String) : String :=
  ⟨(sha256hexChars v).take 16⟩

set_option maxRecDepth 20000 in
/-- Sanity anchor for the hash embedding: the FIPS 180-4 test vector for the
three-byte message abc. -/
theorem sha256hex_abc :
    sha256hex "abc" =
      "ba7816bf8f01cfea414140de5dae2223b00361a396177a9cb410ff61f20015ad" := by
  decide

theorem digestChars_length (s : Words8) : (digestChars s).length = 64 := by
  simp [digestChars, toHex8]

theorem sha256hexChars_length (v : String) :
    (sha256hexChars v).length = 64 :=
  digestChars_length _

theorem hashValue_length (v : String) : (hashValue v).length = 16 := by
  show ((sha256hexChars v).take 16).length = 16
  rw [List.length_take, sha256hexChars_length]
  decide



/-! ### Audit records referencing secret values (src/audit_logger.py)

`log_variable_create` (lines 41-65), `log_variable_update` (lines 67-94) and
`log_variable_delete` (lines 96-116) each build one JSON object and append
it to the audit file.  The timestamp is read from the clock at the call; it
is passed as a parameter here.  Each record structure mirrors the fields of
the corresponding dict literal. -/

/-- The details object of a variable-creation record. -/
structure CreateDetails where
  key_length : Nat
  value_length : Nat
  deriving DecidableEq

/-- The record appended by `log_variable_create`. -/
structure CreateRecord where
  timestamp : String
  action : String
  namespace_ : String
  environment : String
  resource : String
  user_id : String
  ip_address : String
  value_hash : String
  details : CreateDetails
  deriving DecidableEq

/-- Embedding of `log_variable_create` (src/audit_logger.py lines 41-65). -/
def log_variable_create (ts ns env key value user ip : String) : CreateRecord :=
  { timestamp := ts
    action := "CREATE_VARIABLE"
    namespace_ := ns
    environment := env
    resource := key
    user_id := user
    ip_address := ip
    value_hash := hashValue value
    details := { key_length := key.length, value_length := value.length } }

/-- The details object of a variable-update record. -/
structure UpdateDetails where
  value_changed : Bool
  old_length : Nat
  new_length : Nat
  deriving DecidableEq

/-- The record appended by `log_variable_update`. -/
structure UpdateRecord where
  timestamp : String
  action : String
  namespace_ : String
  environment : String
  resource : String
  user_id : String
  ip_address : String
  old_value_hash : String
  new_value_hash : String
  details : UpdateDetails
  deriving DecidableEq

/-- Embedding of `log_variable_update` (src/audit_logger.py lines 67-94). -/
def log_variable_update (ts ns env key oldValue newValue user ip : String) :
    UpdateRecord :=
  { timestamp := ts
    action := "UPDATE_VARIABLE"
    namespace_ := ns
    environment := env
    resource := key
    user_id := user
    ip_address := ip
    old_value_hash := hashValue oldValue
    new_value_hash := hashValue newValue
    details :=
      { value_changed := oldValue != newValue
        old_length := oldValue.length
        new_length := newValue.length } }

/-- The record appended by `log_variable_delete`. -/
structure DeleteRecord where
  timestamp : String
  action : String
  namespace_ : String
  environment : String
  resource : String
  user_id : String
  ip_address : String
  value_hash : String
  deriving DecidableEq

/-- Embedding of `log_variable_delete` (src/audit_logger.py lines 96-116). -/
def log_variable_delete (ts ns env key value user ip : String) : DeleteRecord :=
  { timestamp := ts
    action := "DELETE_VARIABLE"
    namespace_ := ns
    environment := env
    resource := key
    user_id := user
    ip_address := ip
    value_hash := hashValue value }

/-! ### Claim C9

That a record never stores the raw secret value is expressed by
factorization: the record is a function of the fingerprint and the length of
each referenced value (plus, for updates, the equality flag of the two
values) and of nothing else about them.  The builders below take exactly
those derived quantities and visibly never receive the value. -/

/-- A creation record built from the value fingerprint and value length
only. -/
def createFromFingerprint (ts ns env key user ip vh : String) (vlen : Nat) :
    CreateRecord :=
  { timestamp := ts
    action := "CREATE_VARIABLE"
    namespace_ := ns
    environment := env
    resource := key
    user_id := user
    ip_address := ip
    value_hash := vh
    details := { key_length := key.length, value_length := vlen } }

/-- An update record built from the two fingerprints, the two lengths and
the changed flag only. -/
def updateFromFingerprint (ts ns env key user ip ovh nvh : String)
    (changed : Bool) (olen nlen : Nat) : UpdateRecord :=
  { timestamp := ts
    action := "UPDATE_VARIABLE"
    namespace_ := ns
    environment := env
    resource := key
    user_id := user
    ip_address := ip
    old_value_hash := ovh
    new_value_hash := nvh
    details := { value_changed := changed, old_length := olen, new_length := nlen } }

/-- A deletion record built from the value fingerprint only. -/
def deleteFromFingerprint (ts ns env key user ip vh : String) : DeleteRecord :=
  { timestamp := ts
    action := "DELETE_VARIABLE"
    namespace_ := ns
    environment := env
    resource := key
    user_id := user
    ip_address := ip
    value_hash := vh }

/-- C9: every audit event referencing a secret value stores, in place of the
value, the fixed-length fingerprint `hashValue` — the first 16 characters of
the SHA-256 hexadecimal digest, of length 16 for every value — and each of
the three records factors through the fingerprint, the value length and (for
updates) the changed flag: the raw value is not stored in any field. -/
theorem C9_audit_value_fingerprints (ts ns env key v ov nv user ip : String) :
    (hashValue v).length = 16 ∧
      (log_variable_create ts ns env key v user ip).value_hash = hashValue v ∧
      log_variable_create ts ns env key v user ip =
        createFromFingerprint ts ns env key user ip (hashValue v) v.length ∧
      log_variable_update ts ns env key ov nv user ip =
        updateFromFingerprint ts ns env key user ip (hashValue ov) (hashValue nv)
          (ov != nv) ov.length nv.length ∧
      log_variable_delete ts ns env key v user ip =
        deleteFromFingerprint ts ns env key user ip (hashValue v) :=
  ⟨hashValue_length v, rfl, rfl, rfl, rfl⟩

end SEM
